import Mathlib

set_option maxRecDepth 10000

/-
  Verification of the QUIC packet-protection core (crypto.rs) of quiche.

  The source module is embedded shallowly:
  * machine integers are `Nat` with explicit truncation (`% 2^w`) where the
    source truncates (`as u8`, `as u16`, wrapping word arithmetic);
  * fallible Rust code returning `Result` becomes the `Outcome` monad below,
    which also records panics (`unwrap`, `panic!`, out-of-bounds indexing)
    as a distinguished `fault` value;
  * byte buffers are `List Nat` (each element a byte value).

  The underlying cryptographic provider (the `ring` crate) is not part of
  the repository; those parts are modelled from the spec and marked
  `Modelled from the spec:` in their doc comments.  The HKDF/HMAC/SHA-2
  tower is implemented in full (bit-exact, validated against the RFC test
  vectors reproduced in the repository's own test module); the AEAD and
  header-protection stream primitives, which the spec treats as an opaque
  provider, are modelled as a CTR-style keystream XOR plus an appended tag,
  which is the structure shared by all three supported suites.
-/

namespace quiche

/-- Truncate to a 32-bit word. -/
def w32 (x : Nat) : Nat := x % 4294967296

/-- Truncate to a 64-bit word. -/
def w64 (x : Nat) : Nat := x % 18446744073709551616

/-- Big-endian encoding of the low `8*n` bits of `v`, as `n` bytes. -/
def beBytes : Nat → Nat → List Nat
  | 0, _ => []
  | n+1, v => beBytes n (v >>> 8) ++ [v % 256]

/-- Right-rotation of a 32-bit word. -/
def rotr32 (n x : Nat) : Nat := w32 ((x >>> n) ||| (x <<< (32 - n)))

/-- Right-rotation of a 64-bit word. -/
def rotr64 (n x : Nat) : Nat := w64 ((x >>> n) ||| (x <<< (64 - n)))

/-- Modelled from the spec: SHA-256 round constants (FIPS 180-4). -/
def sha256K : List Nat := [
  1116352408, 1899447441, 3049323471, 3921009573,
  961987163, 1508970993, 2453635748, 2870763221,
  3624381080, 310598401, 607225278, 1426881987,
  1925078388, 2162078206, 2614888103, 3248222580,
  3835390401, 4022224774, 264347078, 604807628,
  770255983, 1249150122, 1555081692, 1996064986,
  2554220882, 2821834349, 2952996808, 3210313671,
  3336571891, 3584528711, 113926993, 338241895,
  666307205, 773529912, 1294757372, 1396182291,
  1695183700, 1986661051, 2177026350, 2456956037,
  2730485921, 2820302411, 3259730800, 3345764771,
  3516065817, 3600352804, 4094571909, 275423344,
  430227734, 506948616, 659060556, 883997877,
  958139571, 1322822218, 1537002063, 1747873779,
  1955562222, 2024104815, 2227730452, 2361852424,
  2428436474, 2756734187, 3204031479, 3329325298
]

/-- Modelled from the spec: SHA-256 initial hash state (FIPS 180-4). -/
def sha256H0 : List Nat := [
  1779033703, 3144134277, 1013904242, 2773480762,
  1359893119, 2600822924, 528734635, 1541459225
]

/-- Modelled from the spec: SHA-512 round constants (FIPS 180-4). -/
def sha512K : List Nat := [
  4794697086780616226, 8158064640168781261, 13096744586834688815, 16840607885511220156,
  4131703408338449720, 6480981068601479193, 10538285296894168987, 12329834152419229976,
  15566598209576043074, 1334009975649890238, 2608012711638119052, 6128411473006802146,
  8268148722764581231, 9286055187155687089, 11230858885718282805, 13951009754708518548,
  16472876342353939154, 17275323862435702243, 1135362057144423861, 2597628984639134821,
  3308224258029322869, 5365058923640841347, 6679025012923562964, 8573033837759648693,
  10970295158949994411, 12119686244451234320, 12683024718118986047, 13788192230050041572,
  14330467153632333762, 15395433587784984357, 489312712824947311, 1452737877330783856,
  2861767655752347644, 3322285676063803686, 5560940570517711597, 5996557281743188959,
  7280758554555802590, 8532644243296465576, 9350256976987008742, 10552545826968843579,
  11727347734174303076, 12113106623233404929, 14000437183269869457, 14369950271660146224,
  15101387698204529176, 15463397548674623760, 17586052441742319658, 1182934255886127544,
  1847814050463011016, 2177327727835720531, 2830643537854262169, 3796741975233480872,
  4115178125766777443, 5681478168544905931, 6601373596472566643, 7507060721942968483,
  8399075790359081724, 8693463985226723168, 9568029438360202098, 10144078919501101548,
  10430055236837252648, 11840083180663258601, 13761210420658862357, 14299343276471374635,
  14566680578165727644, 15097957966210449927, 16922976911328602910, 17689382322260857208,
  500013540394364858, 748580250866718886, 1242879168328830382, 1977374033974150939,
  2944078676154940804, 3659926193048069267, 4368137639120453308, 4836135668995329356,
  5532061633213252278, 6448918945643986474, 6902733635092675308, 7801388544844847127
]

/-- Modelled from the spec: SHA-384 initial hash state (FIPS 180-4). -/
def sha384H0 : List Nat := [
  14680500436340154072, 7105036623409894663, 10473403895298186519, 1526699215303891257,
  7436329637833083697, 10282925794625328401, 15784041429090275239, 5167115440072839076
]

/-- SHA-2 choice function on 32-bit words. -/
def ch32 (x y z : Nat) : Nat := (x &&& y) ^^^ ((x ^^^ 4294967295) &&& z)

/-- SHA-2 majority function on 32-bit words. -/
def maj32 (x y z : Nat) : Nat := (x &&& y) ^^^ (x &&& z) ^^^ (y &&& z)

/-- SHA-256 big sigma 0. -/
def bsig0 (x : Nat) : Nat := rotr32 2 x ^^^ rotr32 13 x ^^^ rotr32 22 x

/-- SHA-256 big sigma 1. -/
def bsig1 (x : Nat) : Nat := rotr32 6 x ^^^ rotr32 11 x ^^^ rotr32 25 x

/-- SHA-256 small sigma 0. -/
def ssig0 (x : Nat) : Nat := rotr32 7 x ^^^ rotr32 18 x ^^^ (x >>> 3)

/-- SHA-256 small sigma 1. -/
def ssig1 (x : Nat) : Nat := rotr32 17 x ^^^ rotr32 19 x ^^^ (x >>> 10)

/-- Group a byte list into big-endian 32-bit words. -/
def bytesToWords32 : List Nat → List Nat
  | b0 :: b1 :: b2 :: b3 :: rest =>
      (((b0 * 256 + b1) * 256 + b2) * 256 + b3) :: bytesToWords32 rest
  | _ => []

/-- Group a byte list into big-endian 64-bit words. -/
def bytesToWords64 : List Nat → List Nat
  | b0 :: b1 :: b2 :: b3 :: b4 :: b5 :: b6 :: b7 :: rest =>
      ((((((((b0 * 256 + b1) * 256 + b2) * 256 + b3) * 256 + b4) * 256 + b5)
          * 256 + b6) * 256 + b7) : Nat) :: bytesToWords64 rest
  | _ => []

/-- Serialize 32-bit words to big-endian bytes. -/
def wordsToBytes32 : List Nat → List Nat
  | [] => []
  | w :: ws => beBytes 4 w ++ wordsToBytes32 ws

/-- Serialize 64-bit words to big-endian bytes. -/
def wordsToBytes64 : List Nat → List Nat
  | [] => []
  | w :: ws => beBytes 8 w ++ wordsToBytes64 ws

/-- SHA-256 message-schedule extension; the schedule is kept reversed so the
most recent words sit at the head. -/
def sched32 : Nat → List Nat → List Nat
  | 0, w => w
  | t+1, w =>
      sched32 t (w32 (ssig1 (w.getD 1 0) + w.getD 6 0 + ssig0 (w.getD 14 0) + w.getD 15 0) :: w)

/-- SHA-512 small sigma 0. -/
def ssig0x (x : Nat) : Nat := rotr64 1 x ^^^ rotr64 8 x ^^^ (x >>> 7)

/-- SHA-512 small sigma 1. -/
def ssig1x (x : Nat) : Nat := rotr64 19 x ^^^ rotr64 61 x ^^^ (x >>> 6)

/-- SHA-512 big sigma 0. -/
def bsig0x (x : Nat) : Nat := rotr64 28 x ^^^ rotr64 34 x ^^^ rotr64 39 x

/-- SHA-512 big sigma 1. -/
def bsig1x (x : Nat) : Nat := rotr64 14 x ^^^ rotr64 18 x ^^^ rotr64 41 x

/-- SHA-512 message-schedule extension (reversed schedule). -/
def sched64 : Nat → List Nat → List Nat
  | 0, w => w
  | t+1, w =>
      sched64 t (w64 (ssig1x (w.getD 1 0) + w.getD 6 0 + ssig0x (w.getD 14 0) + w.getD 15 0) :: w)

/-- One SHA-256 round on an 8-word state. -/
def round256 (st : List Nat) (kw : Nat × Nat) : List Nat :=
  match st with
  | [a, b, c, d, e, f, g, h] =>
    let t1 := w32 (h + bsig1 e + ch32 e f g + kw.1 + kw.2)
    let t2 := w32 (bsig0 a + maj32 a b c)
    [w32 (t1 + t2), a, b, c, w32 (d + t1), e, f, g]
  | _ => st

/-- One SHA-512 round on an 8-word state. -/
def round512 (st : List Nat) (kw : Nat × Nat) : List Nat :=
  match st with
  | [a, b, c, d, e, f, g, h] =>
    let t1 := w64 (h + bsig1x e + ((e ^^^ 18446744073709551615) &&& g ^^^ (e &&& f)) + kw.1 + kw.2)
    let t2 := w64 (bsig0x a + ((a &&& b) ^^^ (a &&& c) ^^^ (b &&& c)))
    [w64 (t1 + t2), a, b, c, w64 (d + t1), e, f, g]
  | _ => st

/-- SHA-256 compression of one 64-byte block into the running state. -/
def compress256 (h : List Nat) (block : List Nat) : List Nat :=
  let w := (sched32 48 (bytesToWords32 block).reverse).reverse
  let st := (sha256K.zip w).foldl round256 h
  List.zipWith (fun x y => w32 (x + y)) h st

/-- SHA-512 compression of one 128-byte block into the running state. -/
def compress512 (h : List Nat) (block : List Nat) : List Nat :=
  let w := (sched64 64 (bytesToWords64 block).reverse).reverse
  let st := (sha512K.zip w).foldl round512 h
  List.zipWith (fun x y => w64 (x + y)) h st

/-- Merkle-Damgard padding: append `0x80`, zeros, and the bit length in a
`lenBytes`-byte big-endian field, to a multiple of `blockLen`. -/
def shaPad (blockLen lenBytes : Nat) (msg : List Nat) : List Nat :=
  msg ++ [128] ++
    List.replicate ((blockLen - ((msg.length + 1 + lenBytes) % blockLen)) % blockLen) 0 ++
    beBytes lenBytes (8 * msg.length)

/-- Split a list into `n` consecutive chunks of `blockLen` bytes (fuel-driven,
so it reduces in the kernel). -/
def toBlocks (blockLen : Nat) : Nat → List Nat → List (List Nat)
  | 0, _ => []
  | n+1, l => l.take blockLen :: toBlocks blockLen n (l.drop blockLen)

/-- Modelled from the spec: the SHA-256 digest (FIPS 180-4), bit-exact. -/
def sha256 (msg : List Nat) : List Nat :=
  let p := shaPad 64 8 msg
  wordsToBytes32 ((toBlocks 64 (p.length / 64) p).foldl compress256 sha256H0)

/-- Modelled from the spec: the SHA-384 digest (FIPS 180-4), bit-exact. -/
def sha384 (msg : List Nat) : List Nat :=
  let p := shaPad 128 16 msg
  wordsToBytes64 (((toBlocks 128 (p.length / 128) p).foldl compress512 sha384H0).take 6)

/-- The digest algorithms used by the module (ring `digest::SHA256/SHA384`). -/
inductive DigestAlg where
  | SHA256
  | SHA384
deriving DecidableEq

/-- Digest output length in bytes. -/
def DigestAlg.output_len : DigestAlg → Nat
  | .SHA256 => 32
  | .SHA384 => 48

/-- Digest block length in bytes. -/
def DigestAlg.block_len : DigestAlg → Nat
  | .SHA256 => 64
  | .SHA384 => 128

/-- Dispatch a digest algorithm to its hash function. -/
def digestBytes : DigestAlg → List Nat → List Nat
  | .SHA256, m => sha256 m
  | .SHA384, m => sha384 m

/-- Modelled from the spec: HMAC (RFC 2104) over the given digest. -/
def hmac (dg : DigestAlg) (key msg : List Nat) : List Nat :=
  let k0 := if dg.block_len < key.length then digestBytes dg key else key
  let kp := k0 ++ List.replicate (dg.block_len - k0.length) 0
  digestBytes dg ((kp.map (fun b => b ^^^ 92)) ++
    digestBytes dg ((kp.map (fun b => b ^^^ 54)) ++ msg))

/-- Modelled from the spec: ring `hmac::SigningKey` — a digest algorithm
together with the key bytes. -/
structure SigningKey where
  alg : DigestAlg
  key : List Nat
deriving DecidableEq

/-- The chain of HKDF-Expand output blocks `T(1) .. T(n)` (RFC 5869): returns
the concatenation of the blocks and the last block. -/
def hkdfBlocks (prk : SigningKey) (info : List Nat) : Nat → List Nat × List Nat
  | 0 => ([], [])
  | n+1 =>
    let p := hkdfBlocks prk info n
    let t := hmac prk.alg prk.key (p.2 ++ info ++ [(n+1) % 256])
    (p.1 ++ t, t)

/-- Modelled from the spec: ring `hkdf::expand` — RFC 5869 HKDF-Expand keyed
by the pseudorandom key's digest, producing exactly `outLen` bytes. -/
def hkdfExpandRing (prk : SigningKey) (info : List Nat) (outLen : Nat) : List Nat :=
  (hkdfBlocks prk info ((outLen + (prk.alg.output_len - 1)) / prk.alg.output_len)).1.take outLen

/-- Modelled from the spec: ring `hkdf::extract` — the pseudorandom key is
HMAC(salt, input key material), keyed by the salt key's digest. -/
def hkdfExtractRing (salt : SigningKey) (ikm : List Nat) : SigningKey :=
  ⟨salt.alg, hmac salt.alg salt.key ikm⟩

/-- Modelled from the spec: the crate-level error kind as used by this
module.  `BufferTooShort` is what the octets byte buffer produces; every
recoverable cryptographic failure is surfaced as the single opaque
`CryptoFail` kind. -/
inductive Error where
  | BufferTooShort
  | CryptoFail
deriving DecidableEq

/-- The result of running a piece of the Rust module: a normal value, a
recoverable `Err`, or an unrecoverable panic (`fault`), the latter covering
`unwrap` of a failure, `panic!`, and out-of-bounds indexing. -/
inductive Outcome (α : Type) where
  | ok : α → Outcome α
  | err : Error → Outcome α
  | fault : Outcome α
deriving DecidableEq

/-- Monadic bind for `Outcome`: Rust `?` propagates errors, panics abort. -/
def Outcome.bind {α β : Type} : Outcome α → (α → Outcome β) → Outcome β
  | .ok a, f => f a
  | .err e, _ => .err e
  | .fault, _ => .fault

instance : Monad Outcome where
  pure := Outcome.ok
  bind := Outcome.bind

/-- A call that may panic, modelled as `Option` (`.unwrap()` on a ring
`Result`, or an accessor whose `Null` branch is `panic!`): `none` faults. -/
def faultOnNone {α : Type} : Option α → Outcome α
  | some a => .ok a
  | none => .fault

/-- Rust `.unwrap()` on an octets `Result`: an `Err` panics. -/
def unwrapRes {α : Type} : Except Error α → Outcome α
  | .ok a => .ok a
  | .error _ => .fault

/-- Modelled from the spec: `octets::Bytes` — a fixed-size byte buffer with a
write offset; writes past the end fail with `BufferTooShort`, and the
multi-byte writes are big-endian with the value truncated to the written
width (Rust `as u8` / `as u16` casts). -/
structure OBytes where
  buf : List Nat
  off : Nat
deriving DecidableEq

/-- Modelled from the spec: write raw bytes at the offset. -/
def OBytes.put_bytes (b : OBytes) (v : List Nat) : Except Error OBytes :=
  if b.off + v.length ≤ b.buf.length then
    .ok ⟨b.buf.take b.off ++ v ++ b.buf.drop (b.off + v.length), b.off + v.length⟩
  else .error .BufferTooShort

/-- Modelled from the spec: write one byte. -/
def OBytes.put_u8 (b : OBytes) (v : Nat) : Except Error OBytes :=
  b.put_bytes [v % 256]

/-- Modelled from the spec: write a big-endian 16-bit value. -/
def OBytes.put_u16 (b : OBytes) (v : Nat) : Except Error OBytes :=
  b.put_bytes (beBytes 2 v)

/-- Modelled from the spec: write a big-endian 32-bit value. -/
def OBytes.put_u32 (b : OBytes) (v : Nat) : Except Error OBytes :=
  b.put_bytes (beBytes 4 v)

/-- Modelled from the spec: write a big-endian 64-bit value. -/
def OBytes.put_u64 (b : OBytes) (v : Nat) : Except Error OBytes :=
  b.put_bytes (beBytes 8 v)

/-- The 20-byte Initial salt constant from the source. -/
def INITIAL_SALT : List Nat :=
  [0xef, 0x4f, 0xb0, 0xab, 0xb4, 0x74, 0x70, 0xc4, 0x1b, 0xef,
   0xcf, 0x80, 0x31, 0x33, 0x4f, 0xae, 0x48, 0x5e, 0x09, 0xa0]

/-- The cipher-suite enum from the source. -/
inductive Algorithm where
  | Null
  | AES128_GCM
  | AES256_GCM
  | ChaCha20_Poly1305
deriving DecidableEq

/-- Modelled from the spec: a ring AEAD algorithm's parameter set. -/
structure RingAead where
  key_len : Nat
  tag_len : Nat
  nonce_len : Nat
deriving DecidableEq

/-- Modelled from the spec: ring `aead::AES_128_GCM` parameters. -/
def ringAES_128_GCM : RingAead := ⟨16, 16, 12⟩

/-- Modelled from the spec: ring `aead::AES_256_GCM` parameters. -/
def ringAES_256_GCM : RingAead := ⟨32, 16, 12⟩

/-- Modelled from the spec: ring `aead::CHACHA20_POLY1305` parameters. -/
def ringCHACHA20_POLY1305 : RingAead := ⟨32, 16, 12⟩

/-- Modelled from the spec: a ring unauthenticated stream algorithm's
parameter set; the stream nonce is the AEAD nonce plus a 4-byte counter
field (cf. `pn_nonce_len`). -/
structure RingStream where
  key_len : Nat
  nonce_len : Nat
deriving DecidableEq

/-- Modelled from the spec: ring `unauthenticated_stream::AES_128_CTR`. -/
def ringAES_128_CTR : RingStream := ⟨16, 16⟩

/-- Modelled from the spec: ring `unauthenticated_stream::AES_256_CTR`. -/
def ringAES_256_CTR : RingStream := ⟨32, 16⟩

/-- Modelled from the spec: ring `unauthenticated_stream::CHACHA20`. -/
def ringCHACHA20 : RingStream := ⟨32, 16⟩

/-- `Algorithm::get_ring_aead`; `none` models the `panic!("Not a valid
AEAD")` branch taken on `Null`. -/
def Algorithm.get_ring_aead : Algorithm → Option RingAead
  | .AES128_GCM => some ringAES_128_GCM
  | .AES256_GCM => some ringAES_256_GCM
  | .ChaCha20_Poly1305 => some ringCHACHA20_POLY1305
  | .Null => none

/-- `Algorithm::get_ring_stream`; `none` models the panic on `Null`. -/
def Algorithm.get_ring_stream : Algorithm → Option RingStream
  | .AES128_GCM => some ringAES_128_CTR
  | .AES256_GCM => some ringAES_256_CTR
  | .ChaCha20_Poly1305 => some ringCHACHA20
  | .Null => none

/-- `Algorithm::get_ring_digest`; `none` models the panic on `Null`. -/
def Algorithm.get_ring_digest : Algorithm → Option DigestAlg
  | .AES128_GCM => some .SHA256
  | .AES256_GCM => some .SHA384
  | .ChaCha20_Poly1305 => some .SHA256
  | .Null => none

/-- `Algorithm::key_len` — delegates to the ring AEAD parameters. -/
def Algorithm.key_len (a : Algorithm) : Option Nat :=
  a.get_ring_aead.map RingAead.key_len

/-- `Algorithm::tag_len` — delegates to the ring AEAD parameters. -/
def Algorithm.tag_len (a : Algorithm) : Option Nat :=
  a.get_ring_aead.map RingAead.tag_len

/-- `Algorithm::nonce_len` — delegates to the ring AEAD parameters. -/
def Algorithm.nonce_len (a : Algorithm) : Option Nat :=
  a.get_ring_aead.map RingAead.nonce_len

/-- `Algorithm::pn_nonce_len` — the AEAD nonce length plus the 4-byte
explicit counter used for packet-number protection. -/
def Algorithm.pn_nonce_len (a : Algorithm) : Option Nat :=
  a.get_ring_aead.map (fun p => p.nonce_len + 4)

/-- `hkdf_expand_label` from the source: builds the TLS 1.3 info string in a
256-byte scratch buffer through octets writes (any write failure becomes
`CryptoFail`), then HKDF-Expands the pseudorandom key over that info into
the whole output buffer.  The returned list is the fully rewritten output
buffer. -/
def hkdf_expand_label (prk : SigningKey) (label : List Nat) (out : List Nat) :
    Outcome (List Nat) :=
  let step : Except Error OBytes :=
    (OBytes.put_u16 ⟨List.replicate 256 0, 0⟩ out.length).bind (fun b =>
    (b.put_u8 (6 + label.length)).bind (fun b =>
    (b.put_bytes [116, 108, 115, 49, 51, 32]).bind (fun b =>
    (b.put_bytes label).bind (fun b =>
    b.put_u8 0))))
  match step with
  | .error _ => .err .CryptoFail
  | .ok b => .ok (hkdfExpandRing prk (b.buf.take b.off) out.length)

/-- `derive_initial_secret`: HKDF-Extract of the connection identifier with
the fixed salt under SHA-256. -/
def derive_initial_secret (secret : List Nat) : Outcome SigningKey :=
  .ok (hkdfExtractRing ⟨DigestAlg.SHA256, INITIAL_SALT⟩ secret)

/-- `derive_client_initial_secret`: expand with the ASCII label
`"client in"`. -/
def derive_client_initial_secret (prk : SigningKey) (out : List Nat) :
    Outcome (List Nat) :=
  hkdf_expand_label prk [99, 108, 105, 101, 110, 116, 32, 105, 110] out

/-- `derive_server_initial_secret`: expand with the ASCII label
`"server in"`. -/
def derive_server_initial_secret (prk : SigningKey) (out : List Nat) :
    Outcome (List Nat) :=
  hkdf_expand_label prk [115, 101, 114, 118, 101, 114, 32, 105, 110] out

/-- `derive_pkt_key`: checks the destination size against `key_len`, then
expands the secret with the ASCII label `"quic key"` into the first
`key_len` bytes of the buffer, leaving the rest untouched. -/
def derive_pkt_key (aead : Algorithm) (secret : List Nat) (out : List Nat) :
    Outcome (List Nat) := do
  let key_len ← faultOnNone aead.key_len
  if out.length < key_len then
    Outcome.err .CryptoFail
  else do
    let dg ← faultOnNone aead.get_ring_digest
    let derived ← hkdf_expand_label ⟨dg, secret⟩
      [113, 117, 105, 99, 32, 107, 101, 121] (out.take key_len)
    Outcome.ok (derived ++ out.drop key_len)

/-- `derive_pkt_iv`: checks the destination size against `nonce_len`, then
expands the secret with the ASCII label `"quic iv"` into the first
`nonce_len` bytes of the buffer, leaving the rest untouched. -/
def derive_pkt_iv (aead : Algorithm) (secret : List Nat) (out : List Nat) :
    Outcome (List Nat) := do
  let nonce_len ← faultOnNone aead.nonce_len
  if out.length < nonce_len then
    Outcome.err .CryptoFail
  else do
    let dg ← faultOnNone aead.get_ring_digest
    let derived ← hkdf_expand_label ⟨dg, secret⟩
      [113, 117, 105, 99, 32, 105, 118] (out.take nonce_len)
    Outcome.ok (derived ++ out.drop nonce_len)

/-- `derive_hdr_key`: checks the destination size against `key_len`, then
expands the secret with the ASCII label `"quic hp"` into the first
`key_len` bytes of the buffer, leaving the rest untouched. -/
def derive_hdr_key (aead : Algorithm) (secret : List Nat) (out : List Nat) :
    Outcome (List Nat) := do
  let key_len ← faultOnNone aead.key_len
  if out.length < key_len then
    Outcome.err .CryptoFail
  else do
    let dg ← faultOnNone aead.get_ring_digest
    let derived ← hkdf_expand_label ⟨dg, secret⟩
      [113, 117, 105, 99, 32, 104, 112] (out.take key_len)
    Outcome.ok (derived ++ out.drop key_len)

/-- Modelled from the spec: one 32-byte keystream block of the opaque
cryptographic provider, as a pseudorandom function of key, nonce and block
counter (all three supported suites are stream ciphers of this shape). -/
def ksBlock (key nonce : List Nat) (ctr : Nat) : List Nat :=
  sha256 (key ++ nonce ++ beBytes 8 ctr)

/-- The concatenation of the first `k` keystream blocks. -/
def ksConcat (key nonce : List Nat) : Nat → List Nat
  | 0 => []
  | k+1 => ksConcat key nonce k ++ ksBlock key nonce k

/-- Modelled from the spec: `n` bytes of the provider's keystream. -/
def keystream (key nonce : List Nat) (n : Nat) : List Nat :=
  (ksConcat key nonce ((n + 31) / 32)).take n

/-- Modelled from the spec: the provider's authentication tag over the
associated data and the ciphertext, under the AEAD key and nonce. -/
def aeadTag (key nonce ad ct : List Nat) (tagLen : Nat) : List Nat :=
  (sha256 (key ++ nonce ++ beBytes 8 ad.length ++ ad ++ ct)).take tagLen

/-- Modelled from the spec: ring `aead::seal_in_place` — the buffer holds
the plaintext followed by `out_suffix_capacity` spare bytes; the plaintext
is XOR-encrypted with the keystream and the tag is written right after it.
Returns the updated buffer and the written length; any precondition
violation (non-96-bit nonce, capacity below the tag length or beyond the
buffer) is the provider's single opaque error. -/
def aead_seal_in_place (alg : RingAead) (key nonce ad buf : List Nat)
    (out_suffix_capacity : Nat) : Option (List Nat × Nat) :=
  if nonce.length = 12 ∧ alg.tag_len ≤ out_suffix_capacity ∧
      out_suffix_capacity ≤ buf.length then
    let pt := buf.take (buf.length - out_suffix_capacity)
    let ct := List.zipWith (fun x y => x ^^^ y) pt (keystream key nonce pt.length)
    some (ct ++ aeadTag key nonce ad ct alg.tag_len ++
            buf.drop (pt.length + alg.tag_len),
          pt.length + alg.tag_len)
  else none

/-- Modelled from the spec: ring `aead::open_in_place` with prefix length 0
— splits the buffer into ciphertext and trailing tag, recomputes the tag
over the associated data and the ciphertext, and on a match XOR-decrypts;
a tag mismatch or malformed input is the provider's single opaque error,
with no distinction between the two. -/
def aead_open_in_place (alg : RingAead) (key nonce ad : List Nat)
    (in_prefix_len : Nat) (buf : List Nat) : Option (List Nat) :=
  if nonce.length = 12 ∧ in_prefix_len = 0 ∧ alg.tag_len ≤ buf.length then
    let ct := buf.take (buf.length - alg.tag_len)
    if buf.drop (buf.length - alg.tag_len) = aeadTag key nonce ad ct alg.tag_len then
      some (List.zipWith (fun x y => x ^^^ y) ct (keystream key nonce ct.length))
    else none
  else none

/-- Modelled from the spec: ring `unauthenticated_stream` encryption and
decryption in place — a self-inverse keystream XOR (encryption and
decryption are the same operation); fails when the nonce does not have the
stream nonce length. -/
def stream_xor_in_place (alg : RingStream) (key nonce buf : List Nat) :
    Option (List Nat) :=
  if nonce.length = alg.nonce_len then
    some (List.zipWith (fun x y => x ^^^ y) buf (keystream key nonce buf.length))
  else none

/-- Modelled from the spec: ring AEAD key construction fails when the key
bytes do not have the algorithm's key length. -/
def aeadKeyNew (alg : RingAead) (key : List Nat) : Option (RingAead × List Nat) :=
  if key.length = alg.key_len then some (alg, key) else none

/-- Modelled from the spec: ring stream key construction fails when the key
bytes do not have the algorithm's key length. -/
def streamKeyNew (alg : RingStream) (key : List Nat) : Option (RingStream × List Nat) :=
  if key.length = alg.key_len then some (alg, key) else none

/-- The `Open` object from the source: a decryption direction's AEAD key,
header-protection stream key and base IV. -/
structure Open where
  alg : Algorithm
  pn_key : RingStream × List Nat
  key : RingAead × List Nat
  nonce : List Nat
deriving DecidableEq

/-- `Open::new` — constructs the header-protection and AEAD opening keys in
source order; the source `.unwrap()`s both constructions, so a failing key
construction is a fault, not an error return. -/
def Open.new (alg : Algorithm) (key iv pn_key : List Nat) : Outcome Open := do
  let stream_alg ← faultOnNone alg.get_ring_stream
  let pk ← faultOnNone (streamKeyNew stream_alg pn_key)
  let aead_alg ← faultOnNone alg.get_ring_aead
  let k ← faultOnNone (aeadKeyNew aead_alg key)
  Outcome.ok ⟨alg, pk, k, iv⟩

/-- `Open::open` — AEAD-decrypt the buffer in place; a provider failure is
mapped to `CryptoFail`.  Returns the plaintext (the source returns its
length, which is `.length` of this value). -/
def Open.open (o : Open) (nonce ad buf : List Nat) : Outcome (List Nat) :=
  match aead_open_in_place o.key.1 o.key.2 nonce ad 0 buf with
  | some plain => .ok plain
  | none => .err .CryptoFail

/-- `Open::open_with_u64_counter` — fills a 12-byte scratch (initially
`0xba`) with 4 zero bytes and the big-endian 64-bit counter, XORs it into
a copy of the stored base IV (indexing the scratch at each IV position, a
fault if the IV is longer than the scratch), and opens with that nonce. -/
def Open.open_with_u64_counter (o : Open) (counter : Nat) (ad buf : List Nat) :
    Outcome (List Nat) := do
  let b1 ← unwrapRes ((⟨List.replicate 12 186, 0⟩ : OBytes).put_u32 0)
  let b2 ← unwrapRes (b1.put_u64 counter)
  if o.nonce.length ≤ b2.buf.length then
    Open.open o (List.zipWith (fun x y => x ^^^ y) o.nonce b2.buf) ad buf
  else Outcome.fault

/-- `Open::xor_keystream` — applies the header-protection stream cipher to
the buffer in place; a provider failure is mapped to `CryptoFail`. -/
def Open.xor_keystream (o : Open) (nonce buf : List Nat) : Outcome (List Nat) :=
  match stream_xor_in_place o.pn_key.1 o.pn_key.2 nonce buf with
  | some plain => .ok plain
  | none => .err .CryptoFail

/-- The `Seal` object from the source: an encryption direction's AEAD key,
header-protection stream key and base IV. -/
structure Seal where
  alg : Algorithm
  pn_key : RingStream × List Nat
  key : RingAead × List Nat
  nonce : List Nat
deriving DecidableEq

/-- `Seal::new` — mirror image of `Open::new`, with the same `.unwrap()`
fault behaviour on a failing key construction. -/
def Seal.new (alg : Algorithm) (key iv pn_key : List Nat) : Outcome Seal := do
  let stream_alg ← faultOnNone alg.get_ring_stream
  let pk ← faultOnNone (streamKeyNew stream_alg pn_key)
  let aead_alg ← faultOnNone alg.get_ring_aead
  let k ← faultOnNone (aeadKeyNew aead_alg key)
  Outcome.ok ⟨alg, pk, k, iv⟩

/-- `Seal::seal` — AEAD-encrypt the buffer in place with tag capacity
`tag_len`; returns the updated buffer and the total written length
(plaintext length plus tag length); a provider failure is `CryptoFail`. -/
def Seal.seal (s : Seal) (nonce ad buf : List Nat) : Outcome (List Nat × Nat) := do
  let tl ← faultOnNone s.alg.tag_len
  match aead_seal_in_place s.key.1 s.key.2 nonce ad buf tl with
  | some r => Outcome.ok r
  | none => Outcome.err .CryptoFail

/-- `Seal::seal_with_u64_counter` — same nonce construction as
`Open::open_with_u64_counter`, then seals with that nonce. -/
def Seal.seal_with_u64_counter (s : Seal) (counter : Nat) (ad buf : List Nat) :
    Outcome (List Nat × Nat) := do
  let b1 ← unwrapRes ((⟨List.replicate 12 186, 0⟩ : OBytes).put_u32 0)
  let b2 ← unwrapRes (b1.put_u64 counter)
  if s.nonce.length ≤ b2.buf.length then
    Seal.seal s (List.zipWith (fun x y => x ^^^ y) s.nonce b2.buf) ad buf
  else Outcome.fault

/-- `Seal::xor_keystream` — applies the header-protection stream cipher to
the buffer in place; a provider failure is mapped to `CryptoFail`. -/
def Seal.xor_keystream (s : Seal) (nonce buf : List Nat) : Outcome (List Nat) :=
  match stream_xor_in_place s.pn_key.1 s.pn_key.2 nonce buf with
  | some plain => .ok plain
  | none => .err .CryptoFail

/-- `derive_initial_key_material` — derives both directions' Initial key
material from the connection identifier under AES-128-GCM and assigns it to
an `Open`/`Seal` pair according to the endpoint role. -/
def derive_initial_key_material (cid : List Nat) (is_server : Bool) :
    Outcome (Open × Seal) := do
  let aead := Algorithm.AES128_GCM
  let key_len ← faultOnNone aead.key_len
  let nonce_len ← faultOnNone aead.nonce_len
  let initial_secret ← derive_initial_secret cid
  let secret ← derive_client_initial_secret initial_secret (List.replicate 32 0)
  let client_key ← derive_pkt_key aead secret (List.replicate key_len 0)
  let client_iv ← derive_pkt_iv aead secret (List.replicate nonce_len 0)
  let client_pn_key ← derive_hdr_key aead secret (List.replicate key_len 0)
  let secret2 ← derive_server_initial_secret initial_secret (List.replicate 32 0)
  let server_key ← derive_pkt_key aead secret2 (List.replicate key_len 0)
  let server_iv ← derive_pkt_iv aead secret2 (List.replicate nonce_len 0)
  let server_pn_key ← derive_hdr_key aead secret2 (List.replicate key_len 0)
  if is_server then do
    let o ← Open.new aead client_key client_iv client_pn_key
    let s ← Seal.new aead server_key server_iv server_pn_key
    Outcome.ok (o, s)
  else do
    let o ← Open.new aead server_key server_iv server_pn_key
    let s ← Seal.new aead client_key client_iv client_pn_key
    Outcome.ok (o, s)

/-! Support lemmas: lengths of the derivation primitives, XOR cancellation,
and evaluation of the octets write chains. -/

@[simp]
theorem beBytes_length (n : Nat) : ∀ v, (beBytes n v).length = n := by
  induction n with
  | zero => intro v; rfl
  | succ n ih => intro v; simp [beBytes, ih]

theorem round256_length (st : List Nat) (kw : Nat × Nat) :
    (round256 st kw).length = st.length := by
  unfold round256
  split <;> rfl

theorem foldl_round256_length (l : List (Nat × Nat)) :
    ∀ st : List Nat, (l.foldl round256 st).length = st.length := by
  induction l with
  | nil => intro st; rfl
  | cons kw l ih => intro st; rw [List.foldl_cons, ih, round256_length]

theorem compress256_length (h b : List Nat) :
    (compress256 h b).length = h.length := by
  unfold compress256
  simp [List.length_zipWith, foldl_round256_length]

theorem foldl_compress256_length (bs : List (List Nat)) :
    ∀ h : List Nat, (bs.foldl compress256 h).length = h.length := by
  induction bs with
  | nil => intro h; rfl
  | cons b bs ih => intro h; rw [List.foldl_cons, ih, compress256_length]

theorem wordsToBytes32_length (ws : List Nat) :
    (wordsToBytes32 ws).length = 4 * ws.length := by
  induction ws with
  | nil => rfl
  | cons w ws ih => simp [wordsToBytes32, ih]; omega

theorem sha256_length (m : List Nat) : (sha256 m).length = 32 := by
  unfold sha256
  rw [wordsToBytes32_length, foldl_compress256_length]
  rfl

theorem round512_length (st : List Nat) (kw : Nat × Nat) :
    (round512 st kw).length = st.length := by
  unfold round512
  split <;> rfl

theorem foldl_round512_length (l : List (Nat × Nat)) :
    ∀ st : List Nat, (l.foldl round512 st).length = st.length := by
  induction l with
  | nil => intro st; rfl
  | cons kw l ih => intro st; rw [List.foldl_cons, ih, round512_length]

theorem compress512_length (h b : List Nat) :
    (compress512 h b).length = h.length := by
  unfold compress512
  simp [List.length_zipWith, foldl_round512_length]

theorem foldl_compress512_length (bs : List (List Nat)) :
    ∀ h : List Nat, (bs.foldl compress512 h).length = h.length := by
  induction bs with
  | nil => intro h; rfl
  | cons b bs ih => intro h; rw [List.foldl_cons, ih, compress512_length]

theorem wordsToBytes64_length (ws : List Nat) :
    (wordsToBytes64 ws).length = 8 * ws.length := by
  induction ws with
  | nil => rfl
  | cons w ws ih => simp [wordsToBytes64, ih]; omega

theorem sha384_length (m : List Nat) : (sha384 m).length = 48 := by
  unfold sha384
  rw [wordsToBytes64_length, List.length_take, foldl_compress512_length]
  rfl

@[simp]
theorem digestBytes_length (dg : DigestAlg) (m : List Nat) :
    (digestBytes dg m).length = dg.output_len := by
  cases dg
  · exact sha256_length m
  · exact sha384_length m

@[simp]
theorem hmac_length (dg : DigestAlg) (k m : List Nat) :
    (hmac dg k m).length = dg.output_len := by
  unfold hmac
  exact digestBytes_length dg _

theorem output_len_pos (dg : DigestAlg) : 0 < dg.output_len := by
  cases dg <;> decide

theorem hkdfBlocks_length (prk : SigningKey) (info : List Nat) :
    ∀ n, ((hkdfBlocks prk info n).1).length = n * prk.alg.output_len := by
  intro n
  induction n with
  | zero => simp [hkdfBlocks]
  | succ n ih => simp [hkdfBlocks, ih]; ring

@[simp]
theorem hkdfExpandRing_length (prk : SigningKey) (info : List Nat) (L : Nat) :
    (hkdfExpandRing prk info L).length = L := by
  unfold hkdfExpandRing
  rw [List.length_take, hkdfBlocks_length, Nat.mul_comm]
  have hpos := output_len_pos prk.alg
  have hdm := Nat.div_add_mod (L + (prk.alg.output_len - 1)) prk.alg.output_len
  have hml := Nat.mod_lt (L + (prk.alg.output_len - 1)) hpos
  omega

theorem ksConcat_length (key nonce : List Nat) :
    ∀ k, (ksConcat key nonce k).length = 32 * k := by
  intro k
  induction k with
  | zero => rfl
  | succ k ih => simp [ksConcat, ksBlock, ih, sha256_length]; ring

@[simp]
theorem keystream_length (key nonce : List Nat) (n : Nat) :
    (keystream key nonce n).length = n := by
  unfold keystream
  rw [List.length_take, ksConcat_length]
  have hdm := Nat.div_add_mod (n + 31) 32
  have hml := Nat.mod_lt (n + 31) (show 0 < 32 by decide)
  omega

theorem aeadTag_length (key nonce ad ct : List Nat) (tl : Nat) (h : tl ≤ 32) :
    (aeadTag key nonce ad ct tl).length = tl := by
  unfold aeadTag
  rw [List.length_take, sha256_length]
  omega

theorem xor_left_cancel {x a b : Nat} (h : x ^^^ a = x ^^^ b) : a = b := by
  have := congrArg (fun t => x ^^^ t) h
  simpa [← Nat.xor_assoc, Nat.xor_self, Nat.zero_xor] using this

theorem zipWith_xor_cancel :
    ∀ (xs ks : List Nat), xs.length = ks.length →
      List.zipWith (fun x y => x ^^^ y)
        (List.zipWith (fun x y => x ^^^ y) xs ks) ks = xs := by
  intro xs
  induction xs with
  | nil => intro ks _; simp
  | cons x xs ih =>
    intro ks hk
    cases ks with
    | nil => simp at hk
    | cons k ks =>
      simp only [List.zipWith_cons_cons]
      rw [ih ks (by simpa using hk)]
      congr 1
      rw [Nat.xor_assoc, Nat.xor_self, Nat.xor_zero]

theorem zipWith_xor_inj :
    ∀ (iv a b : List Nat), a.length = iv.length → b.length = iv.length →
      List.zipWith (fun x y => x ^^^ y) iv a = List.zipWith (fun x y => x ^^^ y) iv b →
      a = b := by
  intro iv
  induction iv with
  | nil =>
    intro a b ha hb _
    cases a <;> cases b <;> simp_all
  | cons x iv ih =>
    intro a b ha hb hz
    cases a with
    | nil => simp at ha
    | cons a0 as =>
      cases b with
      | nil => simp at hb
      | cons b0 bs =>
        simp only [List.zipWith_cons_cons, List.cons.injEq] at hz
        have h0 : a0 = b0 := xor_left_cancel hz.1
        have h1 : as = bs := ih as bs (by simpa using ha) (by simpa using hb) hz.2
        rw [h0, h1]

theorem beBytes_inj :
    ∀ (n v1 v2 : Nat), v1 < 2 ^ (8 * n) → v2 < 2 ^ (8 * n) →
      beBytes n v1 = beBytes n v2 → v1 = v2 := by
  intro n
  induction n with
  | zero =>
    intro v1 v2 h1 h2 _
    simp only [Nat.mul_zero, Nat.pow_zero, Nat.lt_one_iff] at h1 h2
    omega
  | succ n ih =>
    intro v1 v2 h1 h2 heq
    simp only [beBytes] at heq
    have hlen : (beBytes n (v1 >>> 8)).length = (beBytes n (v2 >>> 8)).length := by
      simp
    obtain ⟨hpre, hsuf⟩ := List.append_inj heq hlen
    have hmod : v1 % 256 = v2 % 256 := by
      simpa using hsuf
    have hs1 : v1 >>> 8 < 2 ^ (8 * n) := by
      rw [Nat.shiftRight_eq_div_pow]
      have : v1 < 2 ^ (8 * n) * 2 ^ 8 := by
        have : 8 * (n + 1) = 8 * n + 8 := by ring
        rw [this, Nat.pow_add] at h1
        exact h1
      exact (Nat.div_lt_iff_lt_mul (by norm_num)).mpr this
    have hs2 : v2 >>> 8 < 2 ^ (8 * n) := by
      rw [Nat.shiftRight_eq_div_pow]
      have : v2 < 2 ^ (8 * n) * 2 ^ 8 := by
        have : 8 * (n + 1) = 8 * n + 8 := by ring
        rw [this, Nat.pow_add] at h2
        exact h2
      exact (Nat.div_lt_iff_lt_mul (by norm_num)).mpr this
    have hdiv : v1 >>> 8 = v2 >>> 8 := ih _ _ hs1 hs2 hpre
    rw [Nat.shiftRight_eq_div_pow, Nat.shiftRight_eq_div_pow] at hdiv
    have e1 := Nat.div_add_mod v1 256
    have e2 := Nat.div_add_mod v2 256
    simp only [Nat.pow_succ] at hdiv
    omega

@[simp]
theorem ok_bind {α β : Type} (a : α) (f : α → Outcome β) :
    (Outcome.ok a >>= f) = f a := rfl

@[simp]
theorem err_bind {α β : Type} (e : Error) (f : α → Outcome β) :
    ((Outcome.err e : Outcome α) >>= f) = Outcome.err e := rfl

@[simp]
theorem fault_bind {α β : Type} (f : α → Outcome β) :
    ((Outcome.fault : Outcome α) >>= f) = Outcome.fault := rfl

@[simp]
theorem faultOnNone_some {α : Type} (a : α) : faultOnNone (some a) = .ok a := rfl

@[simp]
theorem faultOnNone_none {α : Type} : faultOnNone (none : Option α) = .fault := rfl

@[simp]
theorem unwrapRes_ok {α : Type} (a : α) : unwrapRes (.ok a : Except Error α) = .ok a := rfl

@[simp]
theorem unwrapRes_error {α : Type} (e : Error) :
    unwrapRes (.error e : Except Error α) = .fault := rfl

theorem put_bytes_append (w rest v : List Nat) (h : v.length ≤ rest.length) :
    OBytes.put_bytes ⟨w ++ rest, w.length⟩ v =
      .ok ⟨w ++ v ++ rest.drop v.length, w.length + v.length⟩ := by
  unfold OBytes.put_bytes
  rw [if_pos (by simp [List.length_append]; omega)]
  rw [List.take_left, List.drop_append]

/-- The octets scratch state after sequentially writing `w` into a fresh
256-byte buffer. -/
def wstate (w : List Nat) : OBytes := ⟨w ++ List.replicate (256 - w.length) 0, w.length⟩

theorem put_bytes_wstate (w v : List Nat) (h : w.length + v.length ≤ 256) :
    (wstate w).put_bytes v = .ok (wstate (w ++ v)) := by
  unfold wstate
  rw [put_bytes_append w _ v (by simp; omega)]
  refine congrArg Except.ok ?_
  simp [List.drop_replicate, List.append_assoc, Nat.sub_sub]

/-- The TLS 1.3 HKDF-Expand-Label info encoding for a given label and output
length, as the spec describes it: big-endian 16-bit output length, one byte
holding the length of "tls13 " plus the label, the "tls13 " prefix bytes,
the label bytes, and a zero context length byte. -/
def labelInfo (label : List Nat) (L : Nat) : List Nat :=
  beBytes 2 L ++ [(6 + label.length) % 256] ++ [116, 108, 115, 49, 51, 32] ++ label ++ [0]

theorem hkdf_expand_label_ok (prk : SigningKey) (label out : List Nat)
    (h : label.length ≤ 246) :
    hkdf_expand_label prk label out =
      .ok (hkdfExpandRing prk (labelInfo label out.length) out.length) := by
  have h0 : (⟨List.replicate 256 0, 0⟩ : OBytes) = wstate [] := rfl
  have e1 : OBytes.put_u16 (wstate []) out.length =
      .ok (wstate ([] ++ beBytes 2 out.length)) := by
    rw [OBytes.put_u16]
    exact put_bytes_wstate [] _ (by simp)
  have e2 : OBytes.put_u8 (wstate ([] ++ beBytes 2 out.length)) (6 + label.length) =
      .ok (wstate (([] ++ beBytes 2 out.length) ++ [(6 + label.length) % 256])) := by
    rw [OBytes.put_u8]
    exact put_bytes_wstate _ _ (by simp)
  have e3 : OBytes.put_bytes
      (wstate (([] ++ beBytes 2 out.length) ++ [(6 + label.length) % 256]))
      [116, 108, 115, 49, 51, 32] =
      .ok (wstate ((([] ++ beBytes 2 out.length) ++ [(6 + label.length) % 256]) ++
        [116, 108, 115, 49, 51, 32])) :=
    put_bytes_wstate _ _ (by simp)
  have e4 : OBytes.put_bytes
      (wstate ((([] ++ beBytes 2 out.length) ++ [(6 + label.length) % 256]) ++
        [116, 108, 115, 49, 51, 32])) label =
      .ok (wstate (((([] ++ beBytes 2 out.length) ++ [(6 + label.length) % 256]) ++
        [116, 108, 115, 49, 51, 32]) ++ label)) :=
    put_bytes_wstate _ _ (by simp; omega)
  have e5 : OBytes.put_u8
      (wstate (((([] ++ beBytes 2 out.length) ++ [(6 + label.length) % 256]) ++
        [116, 108, 115, 49, 51, 32]) ++ label)) 0 =
      .ok (wstate ((((([] ++ beBytes 2 out.length) ++ [(6 + label.length) % 256]) ++
        [116, 108, 115, 49, 51, 32]) ++ label) ++ [0 % 256])) := by
    rw [OBytes.put_u8]
    exact put_bytes_wstate _ _ (by simp; omega)
  simp only [hkdf_expand_label, h0, e1, Except.bind, e2, e3, e4, e5]
  refine congrArg Outcome.ok ?_
  have htake : ∀ u : List Nat, (wstate u).buf.take (wstate u).off = u := by
    intro u
    unfold wstate
    exact List.take_left u _
  rw [htake]
  refine congrArg (fun i => hkdfExpandRing prk i out.length) ?_
  simp [labelInfo, List.append_assoc]

theorem derive_pkt_key_eval (aead : Algorithm) (p : RingAead) (dg : DigestAlg)
    (secret out : List Nat)
    (hp : aead.get_ring_aead = some p) (hd : aead.get_ring_digest = some dg)
    (hlen : p.key_len ≤ out.length) :
    derive_pkt_key aead secret out =
      .ok (hkdfExpandRing ⟨dg, secret⟩
            (labelInfo [113, 117, 105, 99, 32, 107, 101, 121] p.key_len) p.key_len ++
          out.drop p.key_len) := by
  have htk : (out.take p.key_len).length = p.key_len := by
    rw [List.length_take]; omega
  have hlbl := hkdf_expand_label_ok (⟨dg, secret⟩ : SigningKey)
    [113, 117, 105, 99, 32, 107, 101, 121] (out.take p.key_len) (by decide)
  rw [htk] at hlbl
  simp only [derive_pkt_key, Algorithm.key_len, hp, hd, Option.map_some',
    faultOnNone_some, ok_bind]
  rw [if_neg (by omega)]
  simp only [faultOnNone_some, ok_bind, hlbl]

theorem derive_pkt_iv_eval (aead : Algorithm) (p : RingAead) (dg : DigestAlg)
    (secret out : List Nat)
    (hp : aead.get_ring_aead = some p) (hd : aead.get_ring_digest = some dg)
    (hlen : p.nonce_len ≤ out.length) :
    derive_pkt_iv aead secret out =
      .ok (hkdfExpandRing ⟨dg, secret⟩
            (labelInfo [113, 117, 105, 99, 32, 105, 118] p.nonce_len) p.nonce_len ++
          out.drop p.nonce_len) := by
  have htk : (out.take p.nonce_len).length = p.nonce_len := by
    rw [List.length_take]; omega
  have hlbl := hkdf_expand_label_ok (⟨dg, secret⟩ : SigningKey)
    [113, 117, 105, 99, 32, 105, 118] (out.take p.nonce_len) (by decide)
  rw [htk] at hlbl
  simp only [derive_pkt_iv, Algorithm.nonce_len, hp, hd, Option.map_some',
    faultOnNone_some, ok_bind]
  rw [if_neg (by omega)]
  simp only [faultOnNone_some, ok_bind, hlbl]

theorem derive_hdr_key_eval (aead : Algorithm) (p : RingAead) (dg : DigestAlg)
    (secret out : List Nat)
    (hp : aead.get_ring_aead = some p) (hd : aead.get_ring_digest = some dg)
    (hlen : p.key_len ≤ out.length) :
    derive_hdr_key aead secret out =
      .ok (hkdfExpandRing ⟨dg, secret⟩
            (labelInfo [113, 117, 105, 99, 32, 104, 112] p.key_len) p.key_len ++
          out.drop p.key_len) := by
  have htk : (out.take p.key_len).length = p.key_len := by
    rw [List.length_take]; omega
  have hlbl := hkdf_expand_label_ok (⟨dg, secret⟩ : SigningKey)
    [113, 117, 105, 99, 32, 104, 112] (out.take p.key_len) (by decide)
  rw [htk] at hlbl
  simp only [derive_hdr_key, Algorithm.key_len, hp, hd, Option.map_some',
    faultOnNone_some, ok_bind]
  rw [if_neg (by omega)]
  simp only [faultOnNone_some, ok_bind, hlbl]

theorem derive_pkt_key_err (aead : Algorithm) (p : RingAead) (secret out : List Nat)
    (hp : aead.get_ring_aead = some p) (hlen : out.length < p.key_len) :
    derive_pkt_key aead secret out = .err .CryptoFail := by
  simp only [derive_pkt_key, Algorithm.key_len, hp, Option.map_some',
    faultOnNone_some, ok_bind]
  rw [if_pos hlen]

theorem derive_pkt_iv_err (aead : Algorithm) (p : RingAead) (secret out : List Nat)
    (hp : aead.get_ring_aead = some p) (hlen : out.length < p.nonce_len) :
    derive_pkt_iv aead secret out = .err .CryptoFail := by
  simp only [derive_pkt_iv, Algorithm.nonce_len, hp, Option.map_some',
    faultOnNone_some, ok_bind]
  rw [if_pos hlen]

theorem derive_hdr_key_err (aead : Algorithm) (p : RingAead) (secret out : List Nat)
    (hp : aead.get_ring_aead = some p) (hlen : out.length < p.key_len) :
    derive_hdr_key aead secret out = .err .CryptoFail := by
  simp only [derive_hdr_key, Algorithm.key_len, hp, Option.map_some',
    faultOnNone_some, ok_bind]
  rw [if_pos hlen]

theorem Open_new_ok (alg : Algorithm) (p : RingAead) (q : RingStream)
    (key iv pn : List Nat)
    (hp : alg.get_ring_aead = some p) (hq : alg.get_ring_stream = some q)
    (hk : key.length = p.key_len) (hpn : pn.length = q.key_len) :
    Open.new alg key iv pn = .ok ⟨alg, (q, pn), (p, key), iv⟩ := by
  simp only [Open.new, hp, hq, faultOnNone_some, ok_bind]
  unfold streamKeyNew
  rw [if_pos hpn]
  simp only [faultOnNone_some, ok_bind]
  unfold aeadKeyNew
  rw [if_pos hk]
  simp only [faultOnNone_some, ok_bind]

theorem Seal_new_ok (alg : Algorithm) (p : RingAead) (q : RingStream)
    (key iv pn : List Nat)
    (hp : alg.get_ring_aead = some p) (hq : alg.get_ring_stream = some q)
    (hk : key.length = p.key_len) (hpn : pn.length = q.key_len) :
    Seal.new alg key iv pn = .ok ⟨alg, (q, pn), (p, key), iv⟩ := by
  simp only [Seal.new, hp, hq, faultOnNone_some, ok_bind]
  unfold streamKeyNew
  rw [if_pos hpn]
  simp only [faultOnNone_some, ok_bind]
  unfold aeadKeyNew
  rw [if_pos hk]
  simp only [faultOnNone_some, ok_bind]

/-- The Initial secret of a connection identifier: HKDF-Extract with the
fixed salt under SHA-256. -/
def initial_secret_of (cid : List Nat) : SigningKey :=
  hkdfExtractRing ⟨DigestAlg.SHA256, INITIAL_SALT⟩ cid

/-- The client-direction Initial traffic secret (label "client in"). -/
def client_secret_of (cid : List Nat) : List Nat :=
  hkdfExpandRing (initial_secret_of cid)
    (labelInfo [99, 108, 105, 101, 110, 116, 32, 105, 110] 32) 32

/-- The server-direction Initial traffic secret (label "server in"). -/
def server_secret_of (cid : List Nat) : List Nat :=
  hkdfExpandRing (initial_secret_of cid)
    (labelInfo [115, 101, 114, 118, 101, 114, 32, 105, 110] 32) 32

/-- The packet key expanded from a traffic secret (label "quic key"). -/
def pkt_key_of (secret : List Nat) : List Nat :=
  hkdfExpandRing ⟨DigestAlg.SHA256, secret⟩
    (labelInfo [113, 117, 105, 99, 32, 107, 101, 121] 16) 16

/-- The packet IV expanded from a traffic secret (label "quic iv"). -/
def pkt_iv_of (secret : List Nat) : List Nat :=
  hkdfExpandRing ⟨DigestAlg.SHA256, secret⟩
    (labelInfo [113, 117, 105, 99, 32, 105, 118] 12) 12

/-- The header-protection key expanded from a traffic secret
(label "quic hp"). -/
def hdr_key_of (secret : List Nat) : List Nat :=
  hkdfExpandRing ⟨DigestAlg.SHA256, secret⟩
    (labelInfo [113, 117, 105, 99, 32, 104, 112] 16) 16

/-- The Opener built from one direction's Initial material. -/
def initial_open_of (secret : List Nat) : Open :=
  ⟨.AES128_GCM, (ringAES_128_CTR, hdr_key_of secret),
   (ringAES_128_GCM, pkt_key_of secret), pkt_iv_of secret⟩

/-- The Sealer built from one direction's Initial material. -/
def initial_seal_of (secret : List Nat) : Seal :=
  ⟨.AES128_GCM, (ringAES_128_CTR, hdr_key_of secret),
   (ringAES_128_GCM, pkt_key_of secret), pkt_iv_of secret⟩

theorem derive_initial_key_material_eval (cid : List Nat) (b : Bool) :
    derive_initial_key_material cid b =
      .ok (if b then
            (initial_open_of (client_secret_of cid),
             initial_seal_of (server_secret_of cid))
          else
            (initial_open_of (server_secret_of cid),
             initial_seal_of (client_secret_of cid))) := by
  have hp : Algorithm.AES128_GCM.get_ring_aead = some ringAES_128_GCM := rfl
  have hq : Algorithm.AES128_GCM.get_ring_stream = some ringAES_128_CTR := rfl
  have hd : Algorithm.AES128_GCM.get_ring_digest = some DigestAlg.SHA256 := rfl
  have hcs : derive_client_initial_secret (initial_secret_of cid)
      (List.replicate 32 0) = .ok (client_secret_of cid) := by
    unfold derive_client_initial_secret client_secret_of
    rw [hkdf_expand_label_ok _ _ _ (by decide)]
    simp
  have hss : derive_server_initial_secret (initial_secret_of cid)
      (List.replicate 32 0) = .ok (server_secret_of cid) := by
    unfold derive_server_initial_secret server_secret_of
    rw [hkdf_expand_label_ok _ _ _ (by decide)]
    simp
  have hk : ∀ s, derive_pkt_key .AES128_GCM s (List.replicate 16 0) =
      .ok (pkt_key_of s) := by
    intro s
    rw [derive_pkt_key_eval _ ringAES_128_GCM .SHA256 _ _ hp hd (by simp [ringAES_128_GCM])]
    simp [pkt_key_of, ringAES_128_GCM, List.drop_replicate]
  have hi : ∀ s, derive_pkt_iv .AES128_GCM s (List.replicate 12 0) =
      .ok (pkt_iv_of s) := by
    intro s
    rw [derive_pkt_iv_eval _ ringAES_128_GCM .SHA256 _ _ hp hd (by simp [ringAES_128_GCM])]
    simp [pkt_iv_of, ringAES_128_GCM, List.drop_replicate]
  have hh : ∀ s, derive_hdr_key .AES128_GCM s (List.replicate 16 0) =
      .ok (hdr_key_of s) := by
    intro s
    rw [derive_hdr_key_eval _ ringAES_128_GCM .SHA256 _ _ hp hd (by simp [ringAES_128_GCM])]
    simp [hdr_key_of, ringAES_128_GCM, List.drop_replicate]
  have hop : ∀ s, Open.new .AES128_GCM (pkt_key_of s) (pkt_iv_of s) (hdr_key_of s) =
      .ok (initial_open_of s) := by
    intro s
    rw [Open_new_ok _ ringAES_128_GCM ringAES_128_CTR _ _ _ hp hq
      (by simp [pkt_key_of, ringAES_128_GCM])
      (by simp [hdr_key_of, ringAES_128_CTR])]
    rfl
  have hse : ∀ s, Seal.new .AES128_GCM (pkt_key_of s) (pkt_iv_of s) (hdr_key_of s) =
      .ok (initial_seal_of s) := by
    intro s
    rw [Seal_new_ok _ ringAES_128_GCM ringAES_128_CTR _ _ _ hp hq
      (by simp [pkt_key_of, ringAES_128_GCM])
      (by simp [hdr_key_of, ringAES_128_CTR])]
    rfl
  have hinit : derive_initial_secret cid = .ok (initial_secret_of cid) := rfl
  have hkl : ringAES_128_GCM.key_len = 16 := rfl
  have hnl : ringAES_128_GCM.nonce_len = 12 := rfl
  simp only [derive_initial_key_material, Algorithm.key_len, Algorithm.nonce_len,
    hp, Option.map_some', faultOnNone_some, ok_bind, hkl, hnl, hinit, hcs, hss,
    hk, hi, hh]
  cases b with
  | true => simp [hop, hse]
  | false => simp [hop, hse]

theorem put_u32_scratch :
    (⟨List.replicate 12 186, 0⟩ : OBytes).put_u32 0 =
      .ok ⟨[0, 0, 0, 0] ++ List.replicate 8 186, 4⟩ := by
  have hb : beBytes 4 0 = [0, 0, 0, 0] := rfl
  have := put_bytes_append [] (List.replicate 12 186) (beBytes 4 0) (by simp)
  simpa [OBytes.put_u32, hb, List.drop_replicate] using this

theorem put_u64_scratch (c : Nat) :
    (⟨[0, 0, 0, 0] ++ List.replicate 8 186, 4⟩ : OBytes).put_u64 c =
      .ok ⟨[0, 0, 0, 0] ++ beBytes 8 c, 12⟩ := by
  have h4 : ([0, 0, 0, 0] : List Nat).length = 4 := rfl
  have := put_bytes_append [0, 0, 0, 0] (List.replicate 8 186) (beBytes 8 c) (by simp)
  simpa [OBytes.put_u64, List.drop_replicate] using this

theorem open_with_u64_counter_eq (o : Open) (c : Nat) (ad buf : List Nat)
    (h : o.nonce.length = 12) :
    o.open_with_u64_counter c ad buf =
      o.open (List.zipWith (fun x y => x ^^^ y) o.nonce ([0, 0, 0, 0] ++ beBytes 8 c))
        ad buf := by
  simp only [Open.open_with_u64_counter, put_u32_scratch, unwrapRes_ok, ok_bind,
    put_u64_scratch]
  rw [if_pos (by simp [h])]

theorem seal_with_u64_counter_eq (s : Seal) (c : Nat) (ad buf : List Nat)
    (h : s.nonce.length = 12) :
    s.seal_with_u64_counter c ad buf =
      s.seal (List.zipWith (fun x y => x ^^^ y) s.nonce ([0, 0, 0, 0] ++ beBytes 8 c))
        ad buf := by
  simp only [Seal.seal_with_u64_counter, put_u32_scratch, unwrapRes_ok, ok_bind,
    put_u64_scratch]
  rw [if_pos (by simp [h])]

theorem ring_tag_le (alg : Algorithm) (p : RingAead) (hp : alg.get_ring_aead = some p) :
    p.tag_len ≤ 32 := by
  cases alg with
  | Null => exact absurd hp (by simp [Algorithm.get_ring_aead])
  | AES128_GCM => injection hp with h; rw [← h]; decide
  | AES256_GCM => injection hp with h; rw [← h]; decide
  | ChaCha20_Poly1305 => injection hp with h; rw [← h]; decide

theorem seal_in_place_eval (p : RingAead) (key nonce ad pt spare : List Nat)
    (hn : nonce.length = 12) (hsp : spare.length = p.tag_len) :
    aead_seal_in_place p key nonce ad (pt ++ spare) p.tag_len =
      some (List.zipWith (fun x y => x ^^^ y) pt (keystream key nonce pt.length) ++
              aeadTag key nonce ad
                (List.zipWith (fun x y => x ^^^ y) pt (keystream key nonce pt.length))
                p.tag_len,
            pt.length + p.tag_len) := by
  have hlen : (pt ++ spare).length - p.tag_len = pt.length := by
    simp [List.length_append, hsp]
  unfold aead_seal_in_place
  rw [if_pos ⟨hn, le_refl _, by simp [List.length_append, hsp]⟩]
  simp only [hlen, List.take_left]
  have hdrop : (pt ++ spare).drop (pt.length + p.tag_len) = [] := by
    rw [List.drop_append, ← hsp, List.drop_length]
  rw [hdrop, List.append_nil]

theorem open_in_place_roundtrip (p : RingAead) (key nonce ad pt : List Nat)
    (hn : nonce.length = 12) (htl : p.tag_len ≤ 32) :
    aead_open_in_place p key nonce ad 0
      (List.zipWith (fun x y => x ^^^ y) pt (keystream key nonce pt.length) ++
        aeadTag key nonce ad
          (List.zipWith (fun x y => x ^^^ y) pt (keystream key nonce pt.length))
          p.tag_len) =
      some pt := by
  set ct := List.zipWith (fun x y => x ^^^ y) pt (keystream key nonce pt.length)
    with hct
  have hctlen : ct.length = pt.length := by
    simp [hct, List.length_zipWith]
  have htag : (aeadTag key nonce ad ct p.tag_len).length = p.tag_len :=
    aeadTag_length key nonce ad ct p.tag_len htl
  have hsplit : (ct ++ aeadTag key nonce ad ct p.tag_len).length - p.tag_len =
      ct.length := by
    simp [List.length_append, htag]
  unfold aead_open_in_place
  rw [if_pos ⟨hn, rfl, by simp [List.length_append, htag]⟩]
  simp only [hsplit, List.take_left, List.drop_left, if_true]
  rw [hctlen, hct]
  rw [zipWith_xor_cancel pt _ (by simp)]

/-! The claims. -/

/-- Claim C9: calling any parameter accessor (`key_len`, `tag_len`,
`nonce_len`, `pn_nonce_len`) on the `Null` cipher-suite variant is an
unrecoverable panic (modelled as `none`), never a normal recoverable error
return; for every non-Null variant the accessors return the suite's fixed
parameters without fault. -/
theorem claim_C9 :
    (Algorithm.key_len .Null = none ∧ Algorithm.tag_len .Null = none ∧
      Algorithm.nonce_len .Null = none ∧ Algorithm.pn_nonce_len .Null = none) ∧
    (Algorithm.key_len .AES128_GCM = some 16 ∧
      Algorithm.tag_len .AES128_GCM = some 16 ∧
      Algorithm.nonce_len .AES128_GCM = some 12 ∧
      Algorithm.pn_nonce_len .AES128_GCM = some 16) ∧
    (Algorithm.key_len .AES256_GCM = some 32 ∧
      Algorithm.tag_len .AES256_GCM = some 16 ∧
      Algorithm.nonce_len .AES256_GCM = some 12 ∧
      Algorithm.pn_nonce_len .AES256_GCM = some 16) ∧
    (Algorithm.key_len .ChaCha20_Poly1305 = some 32 ∧
      Algorithm.tag_len .ChaCha20_Poly1305 = some 16 ∧
      Algorithm.nonce_len .ChaCha20_Poly1305 = some 12 ∧
      Algorithm.pn_nonce_len .ChaCha20_Poly1305 = some 16) := by
  decide

/-- Claim C6, evaluated at the failing input: `Open::new` and `Seal::new`
panic (fault) through `.unwrap()` instead of returning an error when the
ring key construction rejects the supplied key bytes — here a 1-byte AEAD
key under AES-128-GCM, whose key length is 16. -/
theorem claim_C6_eval :
    Open.new .AES128_GCM [0] (List.replicate 12 0) (List.replicate 16 0) =
      .fault ∧
    Seal.new .AES128_GCM [0] (List.replicate 12 0) (List.replicate 16 0) =
      .fault := by
  decide

/-- Claim C2: for the connection identifier c6 54 ef d8 a3 1b 47 92 under
AES-128-GCM and the fixed 20-byte salt, the initial-secret pipeline
(HKDF-Extract with SHA-256 and HKDF-Expand-Label with the labels
"client in", "quic key", "quic iv", "quic hp") yields exactly the listed
client initial secret, packet key, packet IV and header-protection key. -/
theorem claim_C2 :
    (do
      let initial_secret ← derive_initial_secret
        [0xc6, 0x54, 0xef, 0xd8, 0xa3, 0x1b, 0x47, 0x92]
      let secret ← derive_client_initial_secret initial_secret
        (List.replicate 32 0)
      let k ← derive_pkt_key .AES128_GCM secret (List.replicate 16 0)
      let iv ← derive_pkt_iv .AES128_GCM secret (List.replicate 12 0)
      let hp ← derive_hdr_key .AES128_GCM secret (List.replicate 16 0)
      Outcome.ok (secret, k, iv, hp)) =
    Outcome.ok (
      [0x0c, 0x74, 0xbb, 0x95, 0xa1, 0x04, 0x8e, 0x52,
       0xef, 0x3b, 0x72, 0xe1, 0x28, 0x89, 0x35, 0x1c,
       0xd7, 0x3a, 0x55, 0x0f, 0xb6, 0x2c, 0x4b, 0xb0,
       0x87, 0xe9, 0x15, 0xcc, 0xe9, 0x6c, 0xe3, 0xa0],
      [0x86, 0xd1, 0x83, 0x04, 0x80, 0xb4, 0x0f, 0x86,
       0xcf, 0x9d, 0x68, 0xdc, 0xad, 0xf3, 0x5d, 0xfe],
      [0x12, 0xf3, 0x93, 0x8a, 0xca, 0x34, 0xaa, 0x02,
       0x54, 0x31, 0x63, 0xd4],
      [0xcd, 0x25, 0x3a, 0x36, 0xff, 0x93, 0x93, 0x7c,
       0x46, 0x93, 0x84, 0xa8, 0x23, 0xaf, 0x6c, 0x56]) := by
  decide

/-- Claim C1 counterexample: a destination buffer larger than the suite's
key length does NOT make `derive_pkt_key` fail — with a 17-byte buffer
under AES-128-GCM (key length 16) the derivation succeeds, writes the same
16 derived bytes a 16-byte buffer receives, and leaves the extra byte
untouched (the output is silently limited to the bound). -/
theorem claim_C1_counterexample :
    derive_pkt_key .AES128_GCM (List.replicate 32 0) (List.replicate 17 0) =
      .ok [73, 59, 98, 5, 245, 4, 117, 51, 70, 86, 35, 235, 132, 140, 197, 90, 0] ∧
    derive_pkt_key .AES128_GCM (List.replicate 32 0) (List.replicate 16 0) =
      .ok [73, 59, 98, 5, 245, 4, 117, 51, 70, 86, 35, 235, 132, 140, 197, 90] := by
  decide

/-- Claim C1 (amended): for every non-Null suite, `derive_pkt_key`,
`derive_pkt_iv` and `derive_hdr_key` fail with `CryptoFail` exactly when
the destination buffer is smaller than the suite's `key_len`/`nonce_len`
bound (the check happens before the underlying expansion); a buffer at
least as long as the bound never fails: exactly the bound's worth of
derived bytes is written and the rest of the buffer is left untouched. -/
theorem claim_C1 :
    ∀ (aead : Algorithm) (p : RingAead) (secret out : List Nat),
      aead.get_ring_aead = some p →
      ((derive_pkt_key aead secret out = .err .CryptoFail ↔
          out.length < p.key_len) ∧
        (p.key_len ≤ out.length → ∃ d, d.length = p.key_len ∧
          derive_pkt_key aead secret out = .ok (d ++ out.drop p.key_len))) ∧
      ((derive_pkt_iv aead secret out = .err .CryptoFail ↔
          out.length < p.nonce_len) ∧
        (p.nonce_len ≤ out.length → ∃ d, d.length = p.nonce_len ∧
          derive_pkt_iv aead secret out = .ok (d ++ out.drop p.nonce_len))) ∧
      ((derive_hdr_key aead secret out = .err .CryptoFail ↔
          out.length < p.key_len) ∧
        (p.key_len ≤ out.length → ∃ d, d.length = p.key_len ∧
          derive_hdr_key aead secret out = .ok (d ++ out.drop p.key_len))) := by
  intro aead p secret out hp
  have hd : ∃ dg, aead.get_ring_digest = some dg := by
    cases aead with
    | Null => exact absurd hp (by simp [Algorithm.get_ring_aead])
    | AES128_GCM => exact ⟨.SHA256, rfl⟩
    | AES256_GCM => exact ⟨.SHA384, rfl⟩
    | ChaCha20_Poly1305 => exact ⟨.SHA256, rfl⟩
  obtain ⟨dg, hd⟩ := hd
  refine ⟨⟨?_, ?_⟩, ⟨?_, ?_⟩, ⟨?_, ?_⟩⟩
  · constructor
    · intro h
      by_contra hlt
      push_neg at hlt
      rw [derive_pkt_key_eval aead p dg secret out hp hd hlt] at h
      exact Outcome.noConfusion h
    · intro h
      exact derive_pkt_key_err aead p secret out hp h
  · intro h
    exact ⟨_, hkdfExpandRing_length _ _ _,
      derive_pkt_key_eval aead p dg secret out hp hd h⟩
  · constructor
    · intro h
      by_contra hlt
      push_neg at hlt
      rw [derive_pkt_iv_eval aead p dg secret out hp hd hlt] at h
      exact Outcome.noConfusion h
    · intro h
      exact derive_pkt_iv_err aead p secret out hp h
  · intro h
    exact ⟨_, hkdfExpandRing_length _ _ _,
      derive_pkt_iv_eval aead p dg secret out hp hd h⟩
  · constructor
    · intro h
      by_contra hlt
      push_neg at hlt
      rw [derive_hdr_key_eval aead p dg secret out hp hd hlt] at h
      exact Outcome.noConfusion h
    · intro h
      exact derive_hdr_key_err aead p secret out hp h
  · intro h
    exact ⟨_, hkdfExpandRing_length _ _ _,
      derive_hdr_key_eval aead p dg secret out hp hd h⟩

/-- Witness for claim C1: under AES-128-GCM a 3-byte destination buffer
(smaller than the 16-byte key length) makes `derive_pkt_key` fail with
`CryptoFail`. -/
theorem claim_C1_witness :
    derive_pkt_key .AES128_GCM (List.replicate 32 0) (List.replicate 3 0) =
      .err .CryptoFail :=
  (claim_C1 .AES128_GCM ringAES_128_GCM (List.replicate 32 0)
    (List.replicate 3 0) rfl).1.1.mpr (by decide)

/-- Claim C4 counterexample: for a 247-byte label, `hkdf_expand_label` does
not build the info string and expand the key -- the final zero context byte
no longer fits the 256-byte scratch buffer, so the call fails with
`CryptoFail` and no expansion is performed. -/
theorem claim_C4_counterexample :
    hkdf_expand_label ⟨DigestAlg.SHA256, [1]⟩ (List.replicate 247 97)
      (List.replicate 5 0) = .err .CryptoFail := by
  decide

/-- Claim C4 (amended): for every pseudorandom key, every label of at most
246 bytes (so that the 2 + 1 + 6 + label + 1 info bytes fit the 256-byte
scratch buffer), and every output buffer, `hkdf_expand_label` builds the
info string as exactly the big-endian 16-bit encoding of the output
length, one byte holding the length of "tls13 " concatenated with the
label, the bytes of "tls13 " followed by the label, and a single zero
context byte, and then expands the key into exactly `out.length` bytes
under the key's digest algorithm. -/
theorem claim_C4 :
    ∀ (prk : SigningKey) (label out : List Nat),
      label.length ≤ 246 →
      hkdf_expand_label prk label out =
        .ok (hkdfExpandRing prk
          (beBytes 2 out.length ++ [6 + label.length] ++
            [116, 108, 115, 49, 51, 32] ++ label ++ [0]) out.length) ∧
      (hkdfExpandRing prk
          (beBytes 2 out.length ++ [6 + label.length] ++
            [116, 108, 115, 49, 51, 32] ++ label ++ [0]) out.length).length =
        out.length := by
  intro prk label out h1
  have hmod : (6 + label.length) % 256 = 6 + label.length :=
    Nat.mod_eq_of_lt (by omega)
  constructor
  · rw [hkdf_expand_label_ok prk label out h1]
    simp [labelInfo, hmod]
  · exact hkdfExpandRing_length _ _ _

/-- Witness for claim C4 at a concrete key, one-byte label and 5-byte
output buffer. -/
theorem claim_C4_witness :
    hkdf_expand_label ⟨DigestAlg.SHA256, [1, 2, 3]⟩ [97] (List.replicate 5 0) =
      .ok (hkdfExpandRing ⟨DigestAlg.SHA256, [1, 2, 3]⟩
        (beBytes 2 ((List.replicate 5 0 : List Nat)).length ++
          [6 + ([97] : List Nat).length] ++
          [116, 108, 115, 49, 51, 32] ++ [97] ++ [0])
        ((List.replicate 5 0 : List Nat)).length) ∧
    (hkdfExpandRing ⟨DigestAlg.SHA256, [1, 2, 3]⟩
        (beBytes 2 ((List.replicate 5 0 : List Nat)).length ++
          [6 + ([97] : List Nat).length] ++
          [116, 108, 115, 49, 51, 32] ++ [97] ++ [0])
        ((List.replicate 5 0 : List Nat)).length).length =
      ((List.replicate 5 0 : List Nat)).length :=
  claim_C4 ⟨DigestAlg.SHA256, [1, 2, 3]⟩ [97] (List.replicate 5 0)
    (by decide)

/-- Claim C3: `open_with_u64_counter` and `seal_with_u64_counter` build the
per-packet nonce as the bitwise XOR of the stored 12-byte base IV with the
12-byte encoding made of 4 zero bytes followed by the big-endian 64-bit
counter; consequently two distinct counters under the same base IV always
produce distinct nonces. -/
theorem claim_C3 :
    (∀ (o : Open) (c : Nat) (ad buf : List Nat), o.nonce.length = 12 →
      o.open_with_u64_counter c ad buf =
        o.open (List.zipWith (fun x y => x ^^^ y) o.nonce
          ([0, 0, 0, 0] ++ beBytes 8 c)) ad buf) ∧
    (∀ (s : Seal) (c : Nat) (ad buf : List Nat), s.nonce.length = 12 →
      s.seal_with_u64_counter c ad buf =
        s.seal (List.zipWith (fun x y => x ^^^ y) s.nonce
          ([0, 0, 0, 0] ++ beBytes 8 c)) ad buf) ∧
    (∀ (iv : List Nat) (c1 c2 : Nat), iv.length = 12 →
      c1 < 18446744073709551616 → c2 < 18446744073709551616 → c1 ≠ c2 →
      List.zipWith (fun x y => x ^^^ y) iv ([0, 0, 0, 0] ++ beBytes 8 c1) ≠
        List.zipWith (fun x y => x ^^^ y) iv ([0, 0, 0, 0] ++ beBytes 8 c2)) := by
  refine ⟨open_with_u64_counter_eq, seal_with_u64_counter_eq, ?_⟩
  intro iv c1 c2 hiv h1 h2 hne heq
  have hlen1 : ([0, 0, 0, 0] ++ beBytes 8 c1).length = iv.length := by
    simp [hiv]
  have hlen2 : ([0, 0, 0, 0] ++ beBytes 8 c2).length = iv.length := by
    simp [hiv]
  have hlists := zipWith_xor_inj iv _ _ hlen1 hlen2 heq
  have hbe : beBytes 8 c1 = beBytes 8 c2 := List.append_cancel_left hlists
  have hpow : (2 : Nat) ^ (8 * 8) = 18446744073709551616 := by norm_num
  exact hne (beBytes_inj 8 c1 c2 (hpow ▸ h1) (hpow ▸ h2) hbe)

/-- Witness for claim C3 at a concrete Opener, Sealer, base IV and the
counters 0 and 1. -/
theorem claim_C3_witness :
    ((⟨.AES128_GCM, (ringAES_128_CTR, List.replicate 16 0),
        (ringAES_128_GCM, List.replicate 16 0), List.replicate 12 0⟩ :
        Open).open_with_u64_counter 5 [] [] =
      (⟨.AES128_GCM, (ringAES_128_CTR, List.replicate 16 0),
        (ringAES_128_GCM, List.replicate 16 0), List.replicate 12 0⟩ :
        Open).open
        (List.zipWith (fun x y => x ^^^ y)
          (⟨.AES128_GCM, (ringAES_128_CTR, List.replicate 16 0),
            (ringAES_128_GCM, List.replicate 16 0), List.replicate 12 0⟩ :
            Open).nonce ([0, 0, 0, 0] ++ beBytes 8 5)) [] []) ∧
    ((⟨.AES128_GCM, (ringAES_128_CTR, List.replicate 16 0),
        (ringAES_128_GCM, List.replicate 16 0), List.replicate 12 0⟩ :
        Seal).seal_with_u64_counter 5 [] [] =
      (⟨.AES128_GCM, (ringAES_128_CTR, List.replicate 16 0),
        (ringAES_128_GCM, List.replicate 16 0), List.replicate 12 0⟩ :
        Seal).seal
        (List.zipWith (fun x y => x ^^^ y)
          (⟨.AES128_GCM, (ringAES_128_CTR, List.replicate 16 0),
            (ringAES_128_GCM, List.replicate 16 0), List.replicate 12 0⟩ :
            Seal).nonce ([0, 0, 0, 0] ++ beBytes 8 5)) [] []) ∧
    (List.zipWith (fun x y => x ^^^ y) (List.replicate 12 0)
        ([0, 0, 0, 0] ++ beBytes 8 0) ≠
      List.zipWith (fun x y => x ^^^ y) (List.replicate 12 0)
        ([0, 0, 0, 0] ++ beBytes 8 1)) :=
  ⟨claim_C3.1 _ 5 [] [] (by decide),
   claim_C3.2.1 _ 5 [] [] (by decide),
   claim_C3.2.2 (List.replicate 12 0) 0 1 (by decide) (by decide) (by decide)
     (by decide)⟩

/-- Claim C5: `derive_initial_key_material` assigns directional key material
by endpoint role — with `is_server = true` the returned Opener is built
from the client-direction packet key, IV and header-protection key and the
Sealer from the server-direction material; with `is_server = false` the
assignment is reversed. -/
theorem claim_C5 :
    ∀ cid : List Nat,
      derive_initial_key_material cid true =
        .ok (initial_open_of (client_secret_of cid),
             initial_seal_of (server_secret_of cid)) ∧
      derive_initial_key_material cid false =
        .ok (initial_open_of (server_secret_of cid),
             initial_seal_of (client_secret_of cid)) := by
  intro cid
  exact ⟨by simpa using derive_initial_key_material_eval cid true,
         by simpa using derive_initial_key_material_eval cid false⟩

/-- Claim C10: for every connection identifier and both roles,
`derive_initial_key_material` succeeds using the AES-128-GCM suite —
both the Opener and the Sealer report `AES128_GCM` from their algorithm
accessor and carry 16-byte packet and header-protection keys and a
12-byte IV, independent of the connection identifier and the role. -/
theorem claim_C10 :
    ∀ (cid : List Nat) (is_server : Bool), ∃ o s,
      derive_initial_key_material cid is_server = .ok (o, s) ∧
      o.alg = .AES128_GCM ∧ s.alg = .AES128_GCM ∧
      o.key.2.length = 16 ∧ o.pn_key.2.length = 16 ∧ o.nonce.length = 12 ∧
      s.key.2.length = 16 ∧ s.pn_key.2.length = 16 ∧ s.nonce.length = 12 := by
  intro cid b
  cases b with
  | true =>
    refine ⟨_, _, by simpa using derive_initial_key_material_eval cid true,
      rfl, rfl, ?_, ?_, ?_, ?_, ?_, ?_⟩ <;>
      simp [initial_open_of, initial_seal_of, pkt_key_of, pkt_iv_of, hdr_key_of]
  | false =>
    refine ⟨_, _, by simpa using derive_initial_key_material_eval cid false,
      rfl, rfl, ?_, ?_, ?_, ?_, ?_, ?_⟩ <;>
      simp [initial_open_of, initial_seal_of, pkt_key_of, pkt_iv_of, hdr_key_of]

/-- Claim C7: an Opener and a Sealer constructed from the same suite, key,
base IV and header-protection key give `open (seal pt) = pt` for every
plaintext, 96-bit nonce and associated data, on every non-Null suite;
`seal` returns the total written length, equal to the plaintext length plus
the suite's tag length, with the authentication tag appended after the
ciphertext. -/
theorem claim_C7 :
    ∀ (alg : Algorithm) (p : RingAead) (q : RingStream)
      (key iv pn nonce ad pt : List Nat),
      alg.get_ring_aead = some p → alg.get_ring_stream = some q →
      key.length = p.key_len → pn.length = q.key_len → nonce.length = 12 →
      ∃ o s sealed n,
        Open.new alg key iv pn = .ok o ∧
        Seal.new alg key iv pn = .ok s ∧
        s.seal nonce ad (pt ++ List.replicate p.tag_len 0) = .ok (sealed, n) ∧
        n = pt.length + p.tag_len ∧
        sealed.length = pt.length + p.tag_len ∧
        sealed.drop pt.length =
          aeadTag key nonce ad (sealed.take pt.length) p.tag_len ∧
        o.open nonce ad sealed = .ok pt := by
  intro alg p q key iv pn nonce ad pt hp hq hk hpn hn
  have htl := ring_tag_le alg p hp
  have hts : Algorithm.tag_len alg = some p.tag_len := by
    rw [Algorithm.tag_len, hp, Option.map_some']
  set ct := List.zipWith (fun x y => x ^^^ y) pt (keystream key nonce pt.length)
    with hct
  have hctlen : ct.length = pt.length := by simp [hct]
  have htag := aeadTag_length key nonce ad ct p.tag_len htl
  refine ⟨⟨alg, (q, pn), (p, key), iv⟩, ⟨alg, (q, pn), (p, key), iv⟩,
    ct ++ aeadTag key nonce ad ct p.tag_len, pt.length + p.tag_len,
    Open_new_ok alg p q key iv pn hp hq hk hpn,
    Seal_new_ok alg p q key iv pn hp hq hk hpn, ?_, rfl, ?_, ?_, ?_⟩
  · simp only [Seal.seal, hts, faultOnNone_some, ok_bind]
    rw [seal_in_place_eval p key nonce ad pt (List.replicate p.tag_len 0) hn
      (by simp)]
  · simp [List.length_append, hctlen, htag]
  · rw [← hctlen, List.drop_left, List.take_left]
  · simp only [Open.open]
    rw [hct, open_in_place_roundtrip p key nonce ad pt hn htl]

/-- Witness for claim C7: a concrete AES-128-GCM Opener/Sealer pair with a
3-byte plaintext, a 1-byte associated datum and a 12-byte nonce. -/
theorem claim_C7_witness :
    ∃ o s sealed n,
      Open.new .AES128_GCM (List.replicate 16 1) (List.replicate 12 2)
        (List.replicate 16 3) = .ok o ∧
      Seal.new .AES128_GCM (List.replicate 16 1) (List.replicate 12 2)
        (List.replicate 16 3) = .ok s ∧
      s.seal (List.replicate 12 4) [5]
        ([9, 8, 7] ++ List.replicate ringAES_128_GCM.tag_len 0) =
        .ok (sealed, n) ∧
      n = ([9, 8, 7] : List Nat).length + ringAES_128_GCM.tag_len ∧
      sealed.length = ([9, 8, 7] : List Nat).length + ringAES_128_GCM.tag_len ∧
      sealed.drop ([9, 8, 7] : List Nat).length =
        aeadTag (List.replicate 16 1) (List.replicate 12 4) [5]
          (sealed.take ([9, 8, 7] : List Nat).length) ringAES_128_GCM.tag_len ∧
      o.open (List.replicate 12 4) [5] sealed = .ok [9, 8, 7] :=
  claim_C7 .AES128_GCM ringAES_128_GCM ringAES_128_CTR (List.replicate 16 1)
    (List.replicate 12 2) (List.replicate 16 3) (List.replicate 12 4) [5]
    [9, 8, 7] rfl rfl (by decide) (by decide) (by decide)

theorem open_err_only (o : Open) (nonce ad buf : List Nat) (e : Error)
    (h : o.open nonce ad buf = .err e) : e = .CryptoFail := by
  unfold Open.open at h
  cases haux : aead_open_in_place o.key.1 o.key.2 nonce ad 0 buf with
  | some v => rw [haux] at h; exact Outcome.noConfusion h
  | none => rw [haux] at h; injection h with h1; exact h1.symm

theorem openc_err_only (o : Open) (c : Nat) (ad buf : List Nat) (e : Error)
    (h : o.open_with_u64_counter c ad buf = .err e) : e = .CryptoFail := by
  simp only [Open.open_with_u64_counter, put_u32_scratch, unwrapRes_ok,
    ok_bind, put_u64_scratch] at h
  split at h
  · exact open_err_only _ _ _ _ _ h
  · exact Outcome.noConfusion h

theorem open_xor_err_only (o : Open) (nonce buf : List Nat) (e : Error)
    (h : o.xor_keystream nonce buf = .err e) : e = .CryptoFail := by
  unfold Open.xor_keystream at h
  cases haux : stream_xor_in_place o.pn_key.1 o.pn_key.2 nonce buf with
  | some v => rw [haux] at h; exact Outcome.noConfusion h
  | none => rw [haux] at h; injection h with h1; exact h1.symm

theorem seal_err_only (s : Seal) (nonce ad buf : List Nat) (e : Error)
    (h : s.seal nonce ad buf = .err e) : e = .CryptoFail := by
  simp only [Seal.seal] at h
  cases htl : s.alg.tag_len with
  | none =>
    rw [htl] at h
    simp only [faultOnNone_none, fault_bind] at h
    exact Outcome.noConfusion h
  | some tl =>
    rw [htl] at h
    simp only [faultOnNone_some, ok_bind] at h
    cases haux : aead_seal_in_place s.key.1 s.key.2 nonce ad buf tl with
    | some v => rw [haux] at h; exact Outcome.noConfusion h
    | none => rw [haux] at h; injection h with h1; exact h1.symm

theorem sealc_err_only (s : Seal) (c : Nat) (ad buf : List Nat) (e : Error)
    (h : s.seal_with_u64_counter c ad buf = .err e) : e = .CryptoFail := by
  simp only [Seal.seal_with_u64_counter, put_u32_scratch, unwrapRes_ok,
    ok_bind, put_u64_scratch] at h
  split at h
  · exact seal_err_only _ _ _ _ _ h
  · exact Outcome.noConfusion h

theorem seal_xor_err_only (s : Seal) (nonce buf : List Nat) (e : Error)
    (h : s.xor_keystream nonce buf = .err e) : e = .CryptoFail := by
  unfold Seal.xor_keystream at h
  cases haux : stream_xor_in_place s.pn_key.1 s.pn_key.2 nonce buf with
  | some v => rw [haux] at h; exact Outcome.noConfusion h
  | none => rw [haux] at h; injection h with h1; exact h1.symm

theorem hkdf_label_err_only (prk : SigningKey) (label out : List Nat)
    (e : Error) (h : hkdf_expand_label prk label out = .err e) :
    e = .CryptoFail := by
  simp only [hkdf_expand_label] at h
  split at h
  · injection h with h1; exact h1.symm
  · exact Outcome.noConfusion h

theorem dpk_err_only (aead : Algorithm) (secret out : List Nat) (e : Error)
    (h : derive_pkt_key aead secret out = .err e) : e = .CryptoFail := by
  simp only [derive_pkt_key] at h
  cases hkl : aead.key_len with
  | none =>
    rw [hkl] at h
    simp only [faultOnNone_none, fault_bind] at h
    exact Outcome.noConfusion h
  | some kl =>
    rw [hkl] at h
    simp only [faultOnNone_some, ok_bind] at h
    split at h
    · injection h with h1; exact h1.symm
    · cases hdg : aead.get_ring_digest with
      | none =>
        rw [hdg] at h
        simp only [faultOnNone_none, fault_bind] at h
        exact Outcome.noConfusion h
      | some dg =>
        rw [hdg] at h
        simp only [faultOnNone_some, ok_bind] at h
        cases hex : hkdf_expand_label ⟨dg, secret⟩
            [113, 117, 105, 99, 32, 107, 101, 121] (out.take kl) with
        | ok d =>
          rw [hex] at h
          simp only [ok_bind] at h
          exact Outcome.noConfusion h
        | err e2 =>
          rw [hex] at h
          simp only [err_bind] at h
          injection h with h1
          rw [← h1]
          exact hkdf_label_err_only _ _ _ _ hex
        | fault =>
          rw [hex] at h
          simp only [fault_bind] at h
          exact Outcome.noConfusion h

theorem dpi_err_only (aead : Algorithm) (secret out : List Nat) (e : Error)
    (h : derive_pkt_iv aead secret out = .err e) : e = .CryptoFail := by
  simp only [derive_pkt_iv] at h
  cases hkl : aead.nonce_len with
  | none =>
    rw [hkl] at h
    simp only [faultOnNone_none, fault_bind] at h
    exact Outcome.noConfusion h
  | some nl =>
    rw [hkl] at h
    simp only [faultOnNone_some, ok_bind] at h
    split at h
    · injection h with h1; exact h1.symm
    · cases hdg : aead.get_ring_digest with
      | none =>
        rw [hdg] at h
        simp only [faultOnNone_none, fault_bind] at h
        exact Outcome.noConfusion h
      | some dg =>
        rw [hdg] at h
        simp only [faultOnNone_some, ok_bind] at h
        cases hex : hkdf_expand_label ⟨dg, secret⟩
            [113, 117, 105, 99, 32, 105, 118] (out.take nl) with
        | ok d =>
          rw [hex] at h
          simp only [ok_bind] at h
          exact Outcome.noConfusion h
        | err e2 =>
          rw [hex] at h
          simp only [err_bind] at h
          injection h with h1
          rw [← h1]
          exact hkdf_label_err_only _ _ _ _ hex
        | fault =>
          rw [hex] at h
          simp only [fault_bind] at h
          exact Outcome.noConfusion h

theorem dhk_err_only (aead : Algorithm) (secret out : List Nat) (e : Error)
    (h : derive_hdr_key aead secret out = .err e) : e = .CryptoFail := by
  simp only [derive_hdr_key] at h
  cases hkl : aead.key_len with
  | none =>
    rw [hkl] at h
    simp only [faultOnNone_none, fault_bind] at h
    exact Outcome.noConfusion h
  | some kl =>
    rw [hkl] at h
    simp only [faultOnNone_some, ok_bind] at h
    split at h
    · injection h with h1; exact h1.symm
    · cases hdg : aead.get_ring_digest with
      | none =>
        rw [hdg] at h
        simp only [faultOnNone_none, fault_bind] at h
        exact Outcome.noConfusion h
      | some dg =>
        rw [hdg] at h
        simp only [faultOnNone_some, ok_bind] at h
        cases hex : hkdf_expand_label ⟨dg, secret⟩
            [113, 117, 105, 99, 32, 104, 112] (out.take kl) with
        | ok d =>
          rw [hex] at h
          simp only [ok_bind] at h
          exact Outcome.noConfusion h
        | err e2 =>
          rw [hex] at h
          simp only [err_bind] at h
          injection h with h1
          rw [← h1]
          exact hkdf_label_err_only _ _ _ _ hex
        | fault =>
          rw [hex] at h
          simp only [fault_bind] at h
          exact Outcome.noConfusion h

/-- Claim C8: every recoverable failure of `open`, `seal`, the counter
variants, `xor_keystream` and the derivation functions is surfaced as the
single opaque `CryptoFail` error kind — no other error value ever reaches
the caller from these operations. -/
theorem claim_C8 :
    (∀ (o : Open) (nonce ad buf : List Nat) (e : Error),
        o.open nonce ad buf = .err e → e = .CryptoFail) ∧
    (∀ (o : Open) (c : Nat) (ad buf : List Nat) (e : Error),
        o.open_with_u64_counter c ad buf = .err e → e = .CryptoFail) ∧
    (∀ (o : Open) (nonce buf : List Nat) (e : Error),
        o.xor_keystream nonce buf = .err e → e = .CryptoFail) ∧
    (∀ (s : Seal) (nonce ad buf : List Nat) (e : Error),
        s.seal nonce ad buf = .err e → e = .CryptoFail) ∧
    (∀ (s : Seal) (c : Nat) (ad buf : List Nat) (e : Error),
        s.seal_with_u64_counter c ad buf = .err e → e = .CryptoFail) ∧
    (∀ (s : Seal) (nonce buf : List Nat) (e : Error),
        s.xor_keystream nonce buf = .err e → e = .CryptoFail) ∧
    (∀ (prk : SigningKey) (label out : List Nat) (e : Error),
        hkdf_expand_label prk label out = .err e → e = .CryptoFail) ∧
    (∀ (aead : Algorithm) (secret out : List Nat) (e : Error),
        derive_pkt_key aead secret out = .err e → e = .CryptoFail) ∧
    (∀ (aead : Algorithm) (secret out : List Nat) (e : Error),
        derive_pkt_iv aead secret out = .err e → e = .CryptoFail) ∧
    (∀ (aead : Algorithm) (secret out : List Nat) (e : Error),
        derive_hdr_key aead secret out = .err e → e = .CryptoFail) ∧
    (∀ (secret : List Nat) (e : Error),
        derive_initial_secret secret = .err e → e = .CryptoFail) ∧
    (∀ (prk : SigningKey) (out : List Nat) (e : Error),
        derive_client_initial_secret prk out = .err e → e = .CryptoFail) ∧
    (∀ (prk : SigningKey) (out : List Nat) (e : Error),
        derive_server_initial_secret prk out = .err e → e = .CryptoFail) ∧
    (∀ (cid : List Nat) (b : Bool) (e : Error),
        derive_initial_key_material cid b = .err e → e = .CryptoFail) := by
  refine ⟨open_err_only, openc_err_only, open_xor_err_only, seal_err_only,
    sealc_err_only, seal_xor_err_only, hkdf_label_err_only, dpk_err_only,
    dpi_err_only, dhk_err_only, ?_, ?_, ?_, ?_⟩
  · intro secret e h
    exact Outcome.noConfusion h
  · intro prk out e h
    exact hkdf_label_err_only _ _ _ _ h
  · intro prk out e h
    exact hkdf_label_err_only _ _ _ _ h
  · intro cid b e h
    rw [derive_initial_key_material_eval cid b] at h
    exact Outcome.noConfusion h

/-- Witness for claim C8: `derive_pkt_key` with an empty destination buffer
fails, and the surfaced error is exactly `CryptoFail`. -/
theorem claim_C8_witness : Error.CryptoFail = Error.CryptoFail :=
  claim_C8.2.2.2.2.2.2.2.1 .AES128_GCM [] [] .CryptoFail (by decide)

end quiche
